import Mathlib

/-!
Verification development for the local feed-recommender engine.

The JavaScript sources are embedded shallowly: JS numbers are modelled as
exact rationals, JS fields that may be absent become Option fields, the
stateful training entry points become explicit state transformers, and the
two external effects (the tfModel fit/predict calls and the random sorts)
are abstracted as parameters.  Line numbers in the doc comments refer to
model.js (src/unnamed/part_000), server.js and mainbackup.js.
-/

/-- Preference weighting constants (model.js lines 13-17), as exact
rationals. -/
def WEIGHT_LIKED : ℚ := 3

/-- Weight of the interested flag (model.js line 14). -/
def WEIGHT_INTERESTED : ℚ := 2

/-- Weight of the not_interested flag (model.js line 15). -/
def WEIGHT_NOT_INTERESTED : ℚ := -4

/-- Weight of the commented flag (model.js line 16). -/
def WEIGHT_COMMENTED : ℚ := 3/2

/-- Minimum interaction count before analysis or training proceeds
(model.js line 17). -/
def MIN_INTERACTIONS : Nat := 10

/-- One interaction record, keyed by post id (created in mainbackup.js
lines 429-440).  Fields that a JS record may lack are Options; the boolean
flags read as false when absent in JS, so they are plain Bools defaulting
to false. -/
structure Interaction where
  postId : String := ""
  topics : Option (List String) := none
  hashtags : Option (List String) := none
  liked : Bool := false
  interested : Bool := false
  not_interested : Bool := false
  commented : Bool := false
  timeSpentMs : Option ℚ := none
  duration : Option ℚ := none
deriving DecidableEq

/-- The JS expression inter.duration with fallback 10000: undefined and 0
are falsy, so both map to the default duration. -/
def durOr (d : Option ℚ) : ℚ :=
  match d with
  | none => 10000
  | some x => if x = 0 then 10000 else x

/-- The JS expression inter.timeSpentMs with fallback 0. -/
def tsOr (t : Option ℚ) : ℚ :=
  match t with
  | none => 0
  | some x => x

/-- Scalar reaction score of one interaction record in the rule-based
scorer (model.js lines 175-182): the four boolean weights are summed, then
the dwell-time ratio adds +1 when above 0.7 and -1 when below 0.2.  When
timeSpentMs is absent the JS ratio is NaN, both comparisons are false and
no time adjustment applies, which the none branch models. -/
def reactionScore (i : Interaction) : ℚ :=
  let s : ℚ :=
    (if i.liked then WEIGHT_LIKED else 0) +
    (if i.interested then WEIGHT_INTERESTED else 0) +
    (if i.not_interested then WEIGHT_NOT_INTERESTED else 0) +
    (if i.commented then WEIGHT_COMMENTED else 0)
  match i.timeSpentMs with
  | none => s
  | some ts =>
    let timeRatio := ts / durOr i.duration
    s + (if timeRatio > 7/10 then 1 else 0) + (if timeRatio < 1/5 then -1 else 0)

/-- One cell of the topicScores and hashtagScores dictionaries
(model.js lines 166-173). -/
structure ScoreData where
  positive : ℚ
  negative : ℚ
  count : Nat
deriving DecidableEq

/-- Accumulated cell of the topicScores dictionary for one vocabulary
topic (model.js lines 168-189).  The source iterates over the interactions
updating a dictionary keyed by vocabulary topic; updates to distinct keys
commute, so the dictionary is represented by its value at each key,
computed by the same left fold over the interaction list.  The membership
guard models the check that the dictionary has a cell for the topic, i.e.
that the topic is in the vocabulary. -/
def topicData (inters : List Interaction) (t : String) : ScoreData :=
  inters.foldl
    (fun d i =>
      if t ∈ i.topics.getD [] then
        let s := reactionScore i
        { positive := d.positive + (if s > 0 then s else 0)
          negative := d.negative + (if s < 0 then |s| else 0)
          count := d.count + 1 }
      else d)
    ⟨0, 0, 0⟩

/-- Accumulated cell of the hashtagScores dictionary for one vocabulary
hashtag (model.js lines 171-196), built exactly like topicData. -/
def hashtagData (inters : List Interaction) (h : String) : ScoreData :=
  inters.foldl
    (fun d i =>
      if h ∈ i.hashtags.getD [] then
        let s := reactionScore i
        { positive := d.positive + (if s > 0 then s else 0)
          negative := d.negative + (if s < 0 then |s| else 0)
          count := d.count + 1 }
      else d)
    ⟨0, 0, 0⟩

/-- A name with its weight, the entry shape produced by both analyzers
(model.js lines 198-221). -/
structure WeightedEntry where
  name : String
  weight : ℚ
deriving DecidableEq

/-- Composite weight of one vocabulary entry (model.js lines 198-207):
60 percent of the per-interaction average plus 40 percent of the total,
normalised by the interaction count (at least 1). -/
def compositeWeight (d : ScoreData) (n : Nat) : ℚ :=
  let avg : ℚ := if d.count > 0 then (d.positive - d.negative) / d.count else 0
  let total := d.positive - d.negative
  avg * (3/5) + (total / max 1 (n : ℚ)) * (2/5)

/-- Descending order on weighted entries, the order induced by the JS sort
comparator b.weight - a.weight (model.js lines 209 and 221). -/
def weightGE (a b : WeightedEntry) : Prop := b.weight ≤ a.weight

instance : DecidableRel weightGE :=
  fun a b => inferInstanceAs (Decidable (b.weight ≤ a.weight))

instance : IsTotal WeightedEntry weightGE :=
  ⟨fun a b => le_total b.weight a.weight⟩

instance : IsTrans WeightedEntry weightGE :=
  ⟨fun _ _ _ h1 h2 => le_trans h2 h1⟩

/-- Stable descending sort by weight, the JS stable sort with comparator
b.weight - a.weight (model.js lines 209 and 221); insertion sort is stable,
matching the JS engine sort. -/
def sortByWeightDesc (l : List WeightedEntry) : List WeightedEntry :=
  l.insertionSort weightGE

/-- Output of both analyzers: ordered topic and hashtag entries
(model.js lines 161 and 225). -/
structure InterestSet where
  topics : List WeightedEntry
  hashtags : List WeightedEntry
deriving DecidableEq

/-- Rule-based scorer analyzeWithoutModel (model.js lines 165-226).
vocabT and vocabH stand for the globals MODEL_TOPICS and MODEL_HASHTAGS;
in the source they are built from a Set (mainbackup.js lines 20-27), hence
duplicate-free, and Object.entries enumerates the score dictionaries in
that vocabulary order. -/
def analyzeWithoutModel (vocabT vocabH : List String)
    (inters : List Interaction) : InterestSet :=
  let scoredTopics :=
    sortByWeightDesc
      ((vocabT.map (fun t =>
        WeightedEntry.mk t (compositeWeight (topicData inters t) inters.length))).filter
        (fun e => decide (e.weight ≠ 0)))
  let scoredHashtags :=
    sortByWeightDesc
      ((vocabH.map (fun h =>
        WeightedEntry.mk h (compositeWeight (hashtagData inters h) inters.length))).filter
        (fun e => decide (e.weight ≠ 0)))
  let topTopics := (scoredTopics.filter (fun e => decide (e.weight > 1/10))).take 5
  let topHashtags := (scoredHashtags.filter (fun e => decide (e.weight > 1/10))).take 5
  ⟨topTopics, topHashtags⟩

/-- Loop of findNaturalSplit (model.js lines 234-242): i is the current
index, steps the remaining iteration count, maxGap and splitIdx the two
loop variables; returning early models the break statement. -/
def findSplitAux (w : Nat → ℚ) (gapThreshold : ℚ) :
    Nat → ℚ → Nat → Nat → Nat
  | _, _, splitIdx, 0 => splitIdx
  | i, maxGap, splitIdx, steps + 1 =>
    let gap := w i - w (i + 1)
    let relativeGap := gap / w i
    if (gap > maxGap ∧ gap > gapThreshold) ∨ relativeGap > 2/5 then
      if relativeGap > 3/5 then i + 1
      else findSplitAux w gapThreshold (i + 1) gap (i + 1) steps
    else findSplitAux w gapThreshold (i + 1) maxGap splitIdx steps

/-- Natural-break selector findNaturalSplit (model.js lines 229-247);
both call sites pass the weight field as score key.  Division is exact
rational division; the JS NaN and infinity behaviour at a zero divisor is
not exercised by any theorem below. -/
def findNaturalSplit (items : List WeightedEntry) (minThreshold : ℚ) : Nat :=
  if items.length ≤ 3 then items.length
  else
    let w : Nat → ℚ := fun i => ((items[i]?).map WeightedEntry.weight).getD 0
    let gapThreshold := max (1/10) (w 0 * (1/4))
    let splitIdx := findSplitAux w gapThreshold 0 0 items.length (min (items.length - 1) 10)
    if splitIdx = items.length then
      min 5 ((items.filter (fun e => decide (e.weight > minThreshold))).length)
    else splitIdx

/-- Preference score used for the training label (model.js lines 77-88):
the four boolean weights, and only when no boolean signal is set the
time-based fallback (timeSpentMs/duration - 0.5) * 2. -/
def trainPreferenceScore (i : Interaction) : ℚ :=
  let s : ℚ :=
    (if i.liked then WEIGHT_LIKED else 0) +
    (if i.interested then WEIGHT_INTERESTED else 0) +
    (if i.not_interested then WEIGHT_NOT_INTERESTED else 0) +
    (if i.commented then WEIGHT_COMMENTED else 0)
  if !i.liked && !i.interested && !i.not_interested && !i.commented then
    s + (tsOr i.timeSpentMs / durOr i.duration - 1/2) * 2
  else s

/-- Engagement class of one training record (model.js lines 89-92):
0 below -1.5, 2 above 1.5, 1 otherwise. -/
def engagedClass (i : Interaction) : Nat :=
  if trainPreferenceScore i ≤ -3/2 then 0
  else if trainPreferenceScore i ≥ 3/2 then 2
  else 1

/-- One-hot 3-vector, the JS array y with y at the class index set to 1
(model.js lines 94-95). -/
def oneHot3 (k : Nat) : List ℚ :=
  [if k = 0 then 1 else 0, if k = 1 then 1 else 0, if k = 2 then 1 else 0]

/-- Literal embedding of the training-example loop of trainModel
(model.js lines 74-98), producing the xs rows and ys rows in order.
Records without a topics array are skipped by the continue. -/
def buildExamples (vocabT : List String) :
    List Interaction → List (List ℚ) × List (List ℚ)
  | [] => ([], [])
  | inter :: rest =>
    match inter.topics with
    | none => buildExamples vocabT rest
    | some tops =>
      let preferenceScore : ℚ :=
        (if inter.liked then WEIGHT_LIKED else 0) +
        (if inter.interested then WEIGHT_INTERESTED else 0) +
        (if inter.not_interested then WEIGHT_NOT_INTERESTED else 0) +
        (if inter.commented then WEIGHT_COMMENTED else 0) +
        (if !inter.liked && !inter.interested && !inter.not_interested && !inter.commented then
          (tsOr inter.timeSpentMs / durOr inter.duration - 1/2) * 2
        else 0)
      let engaged : Nat :=
        if preferenceScore ≤ -3/2 then 0
        else if preferenceScore ≥ 3/2 then 2
        else 1
      let x := vocabT.map (fun t => if t ∈ tops then (1 : ℚ) else 0)
      let y := [if engaged = 0 then (1 : ℚ) else 0,
                if engaged = 1 then (1 : ℚ) else 0,
                if engaged = 2 then (1 : ℚ) else 0]
      let tail := buildExamples vocabT rest
      (x :: tail.1, y :: tail.2)

/-- Classifier bookkeeping state: tfModel non-null, modelTrained and
modelTraining (model.js lines 5-7). -/
structure ModelState where
  hasModel : Bool
  modelTrained : Bool
  modelTraining : Bool
deriving DecidableEq

/-- Outcome of the external tfModel.fit call inside trainModel. -/
inductive FitOutcome
  | success
  | failure
deriving DecidableEq

/-- Which control path a trainModel invocation took. -/
inductive TrainOutcome
  | skippedBusy
  | skippedNoVocab
  | skippedTooFew
  | completed
deriving DecidableEq

/-- loadModel (model.js lines 20-61) as a state transformer over the
classifier bookkeeping state.  The await on the training promise is a
no-op in this sequential embedding and building the layers cannot fail,
so the catch branch is unreachable. -/
def loadModel (st : ModelState) (vocabLen : Nat) (force : Bool) : ModelState :=
  if !st.hasModel || force then
    if vocabLen = 0 then { st with hasModel := false, modelTrained := false }
    else { st with hasModel := true, modelTrained := false }
  else st

/-- trainModel (model.js lines 64-121) as a sequential state transformer.
The external tfModel.fit outcome is the fit parameter; the catch block
maps a fit failure to modelTrained = false and the finally block always
clears modelTraining, so the embedding is a total function (no exception
escapes) returning the control path taken.  The early return at line 65
covers both the busy flag and the empty vocabulary; the outcome value
distinguishes the two reasons. -/
def trainModel (st : ModelState) (vocabT : List String)
    (inters : List Interaction) (fit : FitOutcome) : ModelState × TrainOutcome :=
  if st.modelTraining then (st, .skippedBusy)
  else if vocabT.length = 0 then (st, .skippedNoVocab)
  else if inters.length < MIN_INTERACTIONS then (st, .skippedTooFew)
  else
    let st1 := loadModel st vocabT.length true
    let st2 := { st1 with modelTraining := true }
    let recentInteractions := inters.drop (inters.length - 100)
    let ex := buildExamples vocabT recentInteractions
    let st3 :=
      match ex.1 with
      | [] => st2
      | x :: _ =>
        if x.length > 0 then
          match fit with
          | .success => { st2 with modelTrained := true }
          | .failure => { st2 with modelTrained := false }
        else st2
    ({ st3 with modelTraining := false }, .completed)

/-- analyzeInteractions (model.js lines 124-162).  The trained tfModel
inference is abstracted as the predict parameter mapping a membership row
to the 3-class output row; predictions are read at indices 2 and 0, with
default 0 for a too-short row (undefined in JS).  The loadModel call at
line 129 only touches bookkeeping state and cannot change the returned
value, so it is dropped here. -/
def analyzeInteractions (predict : List ℚ → List ℚ) (modelTrained : Bool)
    (vocabT vocabH : List String) (inters : List Interaction) : InterestSet :=
  if vocabT.length = 0 then ⟨[], []⟩
  else if inters.length < MIN_INTERACTIONS then ⟨[], []⟩
  else if !modelTrained then analyzeWithoutModel vocabT vocabH inters
  else
    let topicInputs := (List.range vocabT.length).map
      (fun i => (List.range vocabT.length).map (fun j => if i = j then (1 : ℚ) else 0))
    let topicPreds := topicInputs.map predict
    let scoredTopics := sortByWeightDesc
      ((vocabT.zip topicPreds).map
        (fun p => WeightedEntry.mk p.1 ((p.2[2]?).getD 0 - (p.2[0]?).getD 0)))
    let splitIdx := findNaturalSplit scoredTopics (1/10)
    let topTopics := (scoredTopics.take splitIdx).filter (fun e => decide (e.weight > 1/10))
    let hashtagInputs := vocabH.map
      (fun h => vocabT.map
        (fun t => if inters.any
            (fun i => decide (h ∈ i.hashtags.getD []) && decide (t ∈ i.topics.getD []))
          then (1 : ℚ) else 0))
    let hashtagPreds := hashtagInputs.map predict
    let scoredHashtags := sortByWeightDesc
      ((vocabH.zip hashtagPreds).map
        (fun p => WeightedEntry.mk p.1 ((p.2[2]?).getD 0 - (p.2[0]?).getD 0)))
    let splitHIdx := findNaturalSplit scoredHashtags (1/10)
    let topHashtags := (scoredHashtags.take splitHIdx).filter (fun e => decide (e.weight > 1/10))
    ⟨topTopics, topHashtags⟩

/-- One content post served by the API (server.js): id with topic and
hashtag tags; a missing JS tag array behaves as the empty list in every
read of the handler, so plain lists are used. -/
structure Post where
  id : String
  topics : List String
  hashtags : List String
deriving DecidableEq

/-- Weight lookup in the Object.fromEntries maps (server.js lines 69-70,
75 and 78): with duplicate names the later entry wins, and a missing name
scores 0 via the JS fallback to 0. -/
def wlookup (l : List (String × ℚ)) (t : String) : ℚ :=
  match l.reverse.find? (fun e => e.1 == t) with
  | some e => e.2
  | none => 0

/-- Score of one post against the weight maps (server.js lines 72-80):
the sum of matched topic weights plus the sum of matched hashtag weights.
The source skips an absent or empty tag array, which equals folding it to
the initial 0. -/
def scorePost (tw hw : List (String × ℚ)) (p : Post) : ℚ :=
  (p.topics.foldl (fun s t => s + wlookup tw t) 0) +
  (p.hashtags.foldl (fun s h => s + wlookup hw h) 0)

/-- Descending order on scored posts, induced by the JS sort comparator
b.score - a.score (server.js line 82). -/
def scoreGE (a b : Post × ℚ) : Prop := b.2 ≤ a.2

instance : DecidableRel scoreGE :=
  fun a b => inferInstanceAs (Decidable (b.2 ≤ a.2))

instance : IsTotal (Post × ℚ) scoreGE :=
  ⟨fun a b => le_total b.2 a.2⟩

instance : IsTrans (Post × ℚ) scoreGE :=
  ⟨fun _ _ _ h1 h2 => le_trans h2 h1⟩

/-- Stable descending sort of scored posts (server.js line 82). -/
def sortPairsDesc (l : List (Post × ℚ)) : List (Post × ℚ) :=
  l.insertionSort scoreGE

/-- Relevant core of the weighted-scoring branch (server.js lines 72-84):
every post scored, sorted descending by score, the top 2 * limit kept. -/
def coreOf (posts : List Post) (tw hw : List (String × ℚ)) (limit : Nat) : List Post :=
  ((sortPairsDesc (posts.map (fun p => (p, scorePost tw hw p)))).take (limit * 2)).map
    (fun q => q.1)

/-- Candidates excluded by the relevance filter (server.js line 87), the
noise pool. -/
def excludedOf (posts : List Post) (tw hw : List (String × ℚ)) (limit : Nat) : List Post :=
  posts.filter (fun p => !((coreOf posts tw hw limit).contains p))

/-- Weighted-scoring branch of the GET /api/posts handler (server.js
lines 67-90 plus the final shuffle and truncation at lines 107-108).  The
two random JS sorts only permute their input, so they are abstracted as
the permutation parameters noiseShuffle and finalShuffle; Math.floor of
limit times 0.3 equals Nat division of 3 * limit by 10. -/
def weightedSelect (posts : List Post) (tw hw : List (String × ℚ)) (limit : Nat)
    (noiseShuffle finalShuffle : List Post → List Post) : List Post :=
  let core := coreOf posts tw hw limit
  let noiseCount := limit * 3 / 10
  let noise := (noiseShuffle (excludedOf posts tw hw limit)).take noiseCount
  let filtered := core ++ noise
  (finalShuffle filtered).take limit

/-- Kind of a discrete interaction event delivered to recordInteraction
(mainbackup.js lines 426-463): the interested and not_interested buttons,
or any other event type string, which touches no flag. -/
inductive InteractionKind
  | interested
  | notInterested
  | otherKind
deriving DecidableEq

/-- The events of the presentation layer that mutate the interaction
store: recordInteraction (mainbackup.js lines 426-463), the like-button
toggle (lines 261-269), the comment button (lines 272-281) and the
dwell-time recorder (lines 288-306). -/
inductive FeedEvent
  | record (kind : InteractionKind) (post : Post) (spent : Option ℚ)
  | likeToggle (post : Post)
  | commentOnce (post : Post)
  | viewTime (postId : String) (spent : ℚ)
deriving DecidableEq

/-- The interaction store: one optional record per post id
(mainbackup.js line 170). -/
def Store : Type := String → Option Interaction

/-- The initial empty store. -/
def emptyStore : Store := fun _ => none

/-- Fresh record created on first touch (mainbackup.js lines 429-440,
263 and 273): both interest flags, liked and commented start false. -/
def freshRecord (p : Post) : Interaction :=
  { postId := p.id, topics := some p.topics, hashtags := some p.hashtags,
    liked := false, interested := false, not_interested := false,
    commented := false }

/-- The record for a post, creating the fresh one when absent. -/
def ensureRecord (s : Store) (p : Post) : Interaction :=
  match s p.id with
  | some r => r
  | none => freshRecord p

/-- recordInteraction (mainbackup.js lines 426-463) as a store
transformer.  A falsy post.id is the empty string; the Date.now dwell-time
arithmetic for the currently viewed post is abstracted into the optional
spent delta; event types other than interested and not_interested leave
both interest flags untouched. -/
def recordInteraction (s : Store) (kind : InteractionKind) (p : Post)
    (spent : Option ℚ) : Store :=
  if p.id = "" then s
  else
    let r0 := ensureRecord s p
    let r1 :=
      match kind with
      | .interested => { r0 with interested := true, not_interested := false }
      | .notInterested => { r0 with not_interested := true, interested := false }
      | .otherKind => r0
    let r2 :=
      match spent with
      | none => r1
      | some d => { r1 with timeSpentMs := some (tsOr r1.timeSpentMs + d) }
    fun x => if x = p.id then some r2 else s x

/-- Like-button handler (mainbackup.js lines 261-269): toggles liked. -/
def likeToggle (s : Store) (p : Post) : Store :=
  let r0 := ensureRecord s p
  let r1 := { r0 with liked := !r0.liked }
  fun x => if x = p.id then some r1 else s x

/-- Comment-button handler (mainbackup.js lines 272-281): sets commented
once; a second comment is ignored. -/
def commentOnce (s : Store) (p : Post) : Store :=
  let r0 := ensureRecord s p
  let r1 := if r0.commented then r0 else { r0 with commented := true }
  fun x => if x = p.id then some r1 else s x

/-- recordTimeSpentOnCurrentPost (mainbackup.js lines 288-306): adds the
dwell-time delta, creating a minimal record (no flags, no tags) when the
post was never touched; a falsy last-viewed id is a no-op. -/
def viewTime (s : Store) (pid : String) (spent : ℚ) : Store :=
  if pid = "" then s
  else
    let r :=
      match s pid with
      | none => ({ postId := pid, timeSpentMs := some spent } : Interaction)
      | some r0 => { r0 with timeSpentMs := some (tsOr r0.timeSpentMs + spent) }
    fun x => if x = pid then some r else s x

/-- One event applied to the store. -/
def stepEvent (s : Store) : FeedEvent → Store
  | .record kind p spent => recordInteraction s kind p spent
  | .likeToggle p => likeToggle s p
  | .commentOnce p => commentOnce s p
  | .viewTime pid spent => viewTime s pid spent

/-- A whole event sequence applied to the store, in order. -/
def runEvents (evs : List FeedEvent) (s : Store) : Store :=
  evs.foldl stepEvent s

/-- Boolean check that the stored record for a post id has both interest
flags set at once. -/
def interestClash (s : Store) (pid : String) : Bool :=
  match s pid with
  | some r => r.interested && r.not_interested
  | none => false

/-- Sum of the four boolean signal weights of a record, the boolean part
of both scorers. -/
def boolSignalScore (i : Interaction) : ℚ :=
  (if i.liked then WEIGHT_LIKED else 0) +
  (if i.interested then WEIGHT_INTERESTED else 0) +
  (if i.not_interested then WEIGHT_NOT_INTERESTED else 0) +
  (if i.commented then WEIGHT_COMMENTED else 0)

/-- The record with all four boolean signals cleared, keeping the
dwell-time fields. -/
def clearFlags (i : Interaction) : Interaction :=
  { i with liked := false, interested := false, not_interested := false,
           commented := false }

/-- The threshold time signal of the rule-based scorer, stated on its own:
+1 when the dwell ratio exceeds 0.7, -1 when it is below 0.2, nothing when
timeSpentMs is absent (NaN comparisons in JS). -/
def timeSignal (i : Interaction) : ℚ :=
  match i.timeSpentMs with
  | none => 0
  | some ts =>
    (if ts / durOr i.duration > 7/10 then 1 else 0) +
    (if ts / durOr i.duration < 1/5 then -1 else 0)

/-- The natural-break input of testable property three of the spec. -/
def c4input : List WeightedEntry :=
  [⟨"a", 9/10⟩, ⟨"b", 17/20⟩, ⟨"c", 3/10⟩, ⟨"d", 7/25⟩]

/-- A record with no boolean signal, 9000 ms dwell over a 10000 ms
duration. -/
def noFlagRecord : Interaction :=
  { postId := "p", timeSpentMs := some 9000, duration := some 10000 }

/-- A record with no boolean signal, 9500 ms dwell over a 10000 ms
duration. -/
def noFlagRecord2 : Interaction :=
  { postId := "q", timeSpentMs := some 9500, duration := some 10000 }

/-- A liked record tagged with topic s and hashtag h. -/
def likedRecord : Interaction :=
  { postId := "r1", topics := some ["s"], hashtags := some ["h"], liked := true }

/-- A one-element interaction list used to evaluate the rule-based scorer
on concrete data. -/
def sampleInters : List Interaction := [likedRecord]

/-- Ten records that all lack topic data: a degenerate training set. -/
def degTen : List Interaction := List.replicate 10 { postId := "d" }

/-- A classifier state with a training run in flight. -/
def busyState : ModelState :=
  { hasModel := true, modelTrained := false, modelTraining := true }

/-- The untrained idle classifier state. -/
def idleState : ModelState :=
  { hasModel := false, modelTrained := false, modelTraining := false }

/-- A post tagged with topic s. -/
def postA : Post := { id := "A", topics := ["s"], hashtags := [] }

/-- A post with no tags. -/
def postB : Post := { id := "B", topics := [], hashtags := [] }

/-- A two-post candidate pool. -/
def samplePosts : List Post := [postA, postB]

/-- C1: for every interaction collection with fewer than MIN_INTERACTIONS
entries, and likewise whenever the topic vocabulary is empty,
analyzeInteractions returns the empty InterestSet, whatever the classifier
state and its predictions. -/
theorem c1_analyze_empty_short_circuit (predict : List ℚ → List ℚ) (mt : Bool)
    (vocabT vocabH : List String) (inters : List Interaction)
    (h : inters.length < MIN_INTERACTIONS ∨ vocabT = []) :
    analyzeInteractions predict mt vocabT vocabH inters = ⟨[], []⟩ := by
  rcases h with h | h
  · by_cases hv : vocabT.length = 0 <;> simp [analyzeInteractions, hv, h]
  · subst h
    simp [analyzeInteractions]

/-- C1 witness: the empty interaction list is below the threshold and the
analyzer returns the empty InterestSet on it. -/
theorem c1_analyze_empty_short_circuit_witness :
    ([] : List Interaction).length < MIN_INTERACTIONS ∧
    analyzeInteractions (fun _ => []) true ["t"] ["h"] [] = ⟨[], []⟩ :=
  ⟨by decide, c1_analyze_empty_short_circuit _ _ _ _ _ (Or.inl (by decide))⟩

/-- C4: on the descending input a 0.9, b 0.85, c 0.3, d 0.28 with the
default minimum threshold 0.1, findNaturalSplit returns split index 2 (the
gap 0.55 between 0.85 and 0.3 dominates and its relative gap exceeds 0.6),
so the selected head is a, b. -/
theorem c4_natural_split_concrete :
    findNaturalSplit c4input (1/10) = 2 ∧
    (c4input.take (findNaturalSplit c4input (1/10))).map WeightedEntry.name
      = ["a", "b"] := by
  norm_num [findNaturalSplit, c4input, findSplitAux]

/-- C7 counterexample: a train request issued while modelTraining is true
returns immediately with the state unchanged (the early return at model.js
line 65, reached before the code ever touches the in-flight training
promise): the second request neither waits nor runs. -/
theorem c7_counterexample :
    trainModel busyState ["t"] [] .success = (busyState, .skippedBusy) := by
  simp [trainModel, busyState]

/-- C7 amended: at most one training run proceeds at a time under the
training-flag guard, and a second request to train issued while one is
running returns immediately as a no-op, without starting a second
model-parameter update cycle and without waiting on the in-flight run. -/
theorem c7_amended_busy_request_is_noop (st : ModelState) (vocabT : List String)
    (inters : List Interaction) (fit : FitOutcome) (h : st.modelTraining = true) :
    trainModel st vocabT inters fit = (st, .skippedBusy) := by
  simp [trainModel, h]

/-- C7 amended witness: the busy state with a different request. -/
theorem c7_amended_busy_request_is_noop_witness :
    busyState.modelTraining = true ∧
    trainModel busyState ["u"] [] .failure = (busyState, .skippedBusy) :=
  ⟨rfl, c7_amended_busy_request_is_noop _ _ _ _ rfl⟩

/-- C2 counterexample: on the record with no boolean signal, 9000 ms dwell
over 10000 ms, the rule-based scorer computes reaction score 1 (threshold
bonus), not the claimed (0.9 - 0.5) * 2 = 0.8. -/
theorem c2_counterexample :
    reactionScore noFlagRecord = 1 ∧
    (tsOr noFlagRecord.timeSpentMs / durOr noFlagRecord.duration - 1/2) * 2 = 4/5 ∧
    reactionScore noFlagRecord ≠
      (tsOr noFlagRecord.timeSpentMs / durOr noFlagRecord.duration - 1/2) * 2 := by
  norm_num [reactionScore, noFlagRecord, tsOr, durOr]

/-- C2 amended: in the rule-based scorer the time-based signal is the
threshold signal (+1 when the dwell ratio exceeds 0.7, -1 when below 0.2),
it applies to every record and is combined with the boolean terms rather
than replacing them: the reaction score always splits as boolean part plus
the flag-free score, and a record with no boolean signal scores exactly
the threshold time signal. -/
theorem c2_amended_time_threshold_signal (i : Interaction) :
    reactionScore i = boolSignalScore i + reactionScore (clearFlags i) ∧
    (i.liked = false → i.interested = false → i.not_interested = false →
      i.commented = false → reactionScore i = timeSignal i) := by
  obtain ⟨pid, tops, tags, lk, it, nit, cm, ts, dur⟩ := i
  constructor
  · cases ts <;> simp [reactionScore, boolSignalScore, clearFlags] <;> ring
  · rintro rfl rfl rfl rfl
    cases ts <;> simp [reactionScore, timeSignal]

/-- C2 amended witness: the no-flag record scores its time signal, and the
liked record splits into boolean part plus flag-free score. -/
theorem c2_amended_time_threshold_signal_witness :
    reactionScore noFlagRecord = timeSignal noFlagRecord ∧
    reactionScore likedRecord
      = boolSignalScore likedRecord + reactionScore (clearFlags likedRecord) :=
  ⟨(c2_amended_time_threshold_signal noFlagRecord).2 rfl rfl rfl rfl,
   (c2_amended_time_threshold_signal likedRecord).1⟩

/-- C3 counterexample: on the record with no boolean signal, 9500 ms dwell
over 10000 ms, the training preference score is 0.9 (the fallback formula)
while the rule-based scorer computes reaction score 1 (threshold bonus):
the two formulas are not the same. -/
theorem c3_counterexample :
    trainPreferenceScore noFlagRecord2 = 9/10 ∧
    reactionScore noFlagRecord2 = 1 ∧
    trainPreferenceScore noFlagRecord2 ≠ reactionScore noFlagRecord2 := by
  norm_num [trainPreferenceScore, reactionScore, noFlagRecord2, tsOr, durOr]

/-- The preference score expression inlined in the training loop equals
trainPreferenceScore: adding the fallback term conditionally equals the
conditional sum. -/
theorem inlinePref_eq_trainPreferenceScore (i : Interaction) :
    ((if i.liked then WEIGHT_LIKED else 0) +
     (if i.interested then WEIGHT_INTERESTED else 0) +
     (if i.not_interested then WEIGHT_NOT_INTERESTED else 0) +
     (if i.commented then WEIGHT_COMMENTED else 0) +
     (if !i.liked && !i.interested && !i.not_interested && !i.commented then
        (tsOr i.timeSpentMs / durOr i.duration - 1/2) * 2
      else 0)) = trainPreferenceScore i := by
  by_cases hb : (!i.liked && !i.interested && !i.not_interested && !i.commented) = true <;>
    simp [trainPreferenceScore, hb]

/-- C3 amended: every training label built by the trainModel loop is the
one-hot encoding of the engagement class of trainPreferenceScore (the
shared boolean weights, with the time fallback only when no boolean is
set): class 0 when the score is at most -1.5, class 2 when at least 1.5,
class 1 otherwise; records without topic data are skipped, and the
matching feature rows are vocabulary membership vectors. -/
theorem c3_amended_label_derivation (vocabT : List String)
    (inters : List Interaction) :
    (buildExamples vocabT inters).2 =
      (inters.filter (fun i => i.topics.isSome)).map
        (fun i => oneHot3 (engagedClass i)) ∧
    (buildExamples vocabT inters).1 =
      (inters.filter (fun i => i.topics.isSome)).map
        (fun i => vocabT.map (fun t => if t ∈ i.topics.getD [] then (1 : ℚ) else 0)) := by
  induction inters with
  | nil => simp [buildExamples]
  | cons i rest ih =>
    cases hto : i.topics with
    | none =>
      simp [buildExamples, hto, ih.1, ih.2, List.filter_cons, Option.isSome]
    | some tops =>
      simp [buildExamples, hto, ih.1, ih.2, List.filter_cons, Option.isSome,
        inlinePref_eq_trainPreferenceScore i, engagedClass, oneHot3, trainPreferenceScore]
      by_cases hb : ((i.liked = false ∧ i.interested = false) ∧
          i.not_interested = false) ∧ i.commented = false
      · simp [hb]
      · simp [hb]

/-- C6: when trainModel is entered with no run in flight, the training
flag is always cleared on return (never left stuck), a fit failure that
reaches the training body leaves modelTrained false (the catch block), and
a degenerate example set with zero usable feature rows likewise leaves
modelTrained false for every fit outcome; the embedding is a total
function, mirroring the try/catch/finally that lets no exception escape to
the caller. -/
theorem c6_training_failure_resets (st : ModelState) (vocabT : List String)
    (inters : List Interaction) (h : st.modelTraining = false) :
    (∀ fit, (trainModel st vocabT inters fit).1.modelTraining = false) ∧
    ((trainModel st vocabT inters .failure).2 = .completed →
      (trainModel st vocabT inters .failure).1.modelTrained = false) ∧
    (∀ fit, (trainModel st vocabT inters fit).2 = .completed →
      (buildExamples vocabT (inters.drop (inters.length - 100))).1 = [] →
      (trainModel st vocabT inters fit).1.modelTrained = false) := by
  by_cases h1 : vocabT.length = 0
  · refine ⟨fun fit => ?_, fun hc => ?_, fun fit hc hdeg => ?_⟩
    · simp [trainModel, h, h1]
    · simp [trainModel, h, h1] at hc
    · simp [trainModel, h, h1] at hc
  · by_cases h2 : inters.length < MIN_INTERACTIONS
    · refine ⟨fun fit => ?_, fun hc => ?_, fun fit hc hdeg => ?_⟩
      · simp [trainModel, h, h1, h2]
      · simp [trainModel, h, h1, h2] at hc
      · simp [trainModel, h, h1, h2] at hc
    · refine ⟨fun fit => ?_, fun hc => ?_, fun fit hc hdeg => ?_⟩
      · simp only [trainModel, h, h1, h2]
        split <;> simp_all
      · simp only [trainModel, h, h1, h2] at hc ⊢
        rcases hbe : (buildExamples vocabT (List.drop (inters.length - 100) inters)).1
            with _ | ⟨x, tail⟩ <;>
          simp_all [loadModel, apply_ite ModelState.modelTrained]
      · simp only [trainModel, h, h1, h2] at hdeg ⊢
        split <;> simp_all [loadModel, h1]

/-- C6 witness: ten records all lacking topic data form a degenerate
training set; training completes on them with the trained flag false and
the training flag cleared, even on a failing fit. -/
theorem c6_training_failure_resets_witness :
    (trainModel idleState ["t"] degTen .failure).1.modelTraining = false ∧
    (trainModel idleState ["t"] degTen .failure).1.modelTrained = false :=
  ⟨(c6_training_failure_resets idleState ["t"] degTen rfl).1 .failure,
   (c6_training_failure_resets idleState ["t"] degTen rfl).2.2 .failure
     (by simp [trainModel, idleState, degTen, MIN_INTERACTIONS, buildExamples])
     (by simp [degTen, buildExamples])⟩

/-- A store whose record at pid is clash-free stays clash-free at pid when
some id is overwritten with a record whose interest flags do not clash. -/
theorem interestClash_update (s : Store) (pid id2 : String) (r : Interaction)
    (hr : (r.interested && r.not_interested) = false)
    (h : interestClash s pid = false) :
    interestClash (fun x => if x = id2 then some r else s x) pid = false := by
  by_cases hx : pid = id2
  · simp [interestClash, hx, hr]
  · simpa [interestClash, hx] using h

/-- A record actually stored at a clash-free id has clash-free flags. -/
theorem clash_some (s : Store) (pid : String) (r : Interaction)
    (h : interestClash s pid = false) (hs : s pid = some r) :
    (r.interested && r.not_interested) = false := by
  simpa [interestClash, hs] using h

/-- Any single feed event preserves the absence of a record with both
interest flags set. -/
theorem stepEvent_clash_free (s : Store) (e : FeedEvent)
    (h : ∀ pid, interestClash s pid = false) :
    ∀ pid, interestClash (stepEvent s e) pid = false := by
  intro pid
  have hrec : ∀ p : Post,
      ((ensureRecord s p).interested && (ensureRecord s p).not_interested) = false := by
    intro p
    cases hsp : s p.id with
    | none => simp [ensureRecord, hsp, freshRecord]
    | some r => simpa [ensureRecord, hsp] using clash_some s p.id r (h p.id) hsp
  cases e with
  | record kind p spent =>
    by_cases hid : p.id = ""
    · simpa [stepEvent, recordInteraction, hid] using h pid
    · simp only [stepEvent, recordInteraction]
      rw [if_neg hid]
      apply interestClash_update _ _ _ _ ?_ (h pid)
      cases kind <;> cases spent <;> simp [hrec p]
  | likeToggle p =>
    simp only [stepEvent, likeToggle]
    apply interestClash_update _ _ _ _ ?_ (h pid)
    simp [hrec p]
  | commentOnce p =>
    simp only [stepEvent, commentOnce]
    apply interestClash_update _ _ _ _ ?_ (h pid)
    by_cases hcm : (ensureRecord s p).commented = true <;> simp [hcm, hrec p]
  | viewTime pid2 spent =>
    by_cases hid : pid2 = ""
    · simpa [stepEvent, viewTime, hid] using h pid
    · simp only [stepEvent, viewTime]
      rw [if_neg hid]
      apply interestClash_update _ _ _ _ ?_ (h pid)
      cases hsp : s pid2 with
      | none => simp
      | some r0 => simpa using clash_some s pid2 r0 (h pid2) hsp

/-- Every event sequence from a clash-free store ends clash-free. -/
theorem runEvents_clash_free (evs : List FeedEvent) (s : Store)
    (h : ∀ pid, interestClash s pid = false) :
    ∀ pid, interestClash (runEvents evs s) pid = false := by
  induction evs generalizing s with
  | nil => exact h
  | cons e rest ih =>
    intro pid
    simpa [runEvents, List.foldl_cons] using
      ih (stepEvent s e) (stepEvent_clash_free s e h) pid

/-- C9: over every sequence of recorded interaction events starting from
the empty store, no record ever has interested and not_interested true at
once; recording an interested event sets interested true and
not_interested false, recording a not_interested event sets the opposite
pair, and no other event touches either flag (the event embedding keeps
them unchanged). -/
theorem c9_interest_flags_exclusive :
    (∀ evs pid, interestClash (runEvents evs emptyStore) pid = false) ∧
    (∀ (s : Store) (p : Post) (spent : Option ℚ), p.id ≠ "" →
      ((recordInteraction s .interested p spent) p.id).map
        (fun r => (r.interested, r.not_interested)) = some (true, false)) ∧
    (∀ (s : Store) (p : Post) (spent : Option ℚ), p.id ≠ "" →
      ((recordInteraction s .notInterested p spent) p.id).map
        (fun r => (r.interested, r.not_interested)) = some (false, true)) := by
  refine ⟨fun evs pid =>
      runEvents_clash_free evs emptyStore (fun pid2 => rfl) pid, ?_, ?_⟩ <;>
  · intro s p spent hid
    cases spent <;> simp [recordInteraction, hid]

/-- C9 witness: one interested event on a concrete post. -/
theorem c9_interest_flags_exclusive_witness :
    interestClash (runEvents [FeedEvent.record .interested postA none] emptyStore) "A"
      = false ∧
    ((recordInteraction emptyStore .interested postA none) postA.id).map
      (fun r => (r.interested, r.not_interested)) = some (true, false) :=
  ⟨c9_interest_flags_exclusive.1 _ _,
   c9_interest_flags_exclusive.2.1 emptyStore postA none (by decide)⟩

/-- Concrete evaluation of the rule-based scorer on the one-record sample:
the liked record scores 3, giving composite weight 3 for its topic and its
hashtag. -/
theorem analyzeSample_eq :
    analyzeWithoutModel ["s"] ["h"] sampleInters = ⟨[⟨"s", 3⟩], [⟨"h", 3⟩]⟩ := by
  norm_num [analyzeWithoutModel, sortByWeightDesc, compositeWeight, topicData,
    hashtagData, reactionScore, WEIGHT_LIKED, WEIGHT_INTERESTED,
    WEIGHT_NOT_INTERESTED, WEIGHT_COMMENTED, sampleInters, likedRecord]

/-- C10: the rule-based scorer only produces entries whose names belong to
the current vocabulary: every topic entry of the result names a vocabulary
topic and every hashtag entry names a vocabulary hashtag, for every
interaction list, so tags seen only in interaction records never appear in
the returned InterestSet. -/
theorem c10_rule_scorer_vocabulary_closure (vocabT vocabH : List String)
    (inters : List Interaction) :
    (∀ e ∈ (analyzeWithoutModel vocabT vocabH inters).topics, e.name ∈ vocabT) ∧
    (∀ e ∈ (analyzeWithoutModel vocabT vocabH inters).hashtags, e.name ∈ vocabH) := by
  constructor
  · intro e he
    simp only [analyzeWithoutModel] at he
    have h1 := List.take_subset 5 _ he
    have h2 := (List.mem_filter.mp h1).1
    simp only [sortByWeightDesc, List.mem_insertionSort] at h2
    have h3 := (List.mem_filter.mp h2).1
    obtain ⟨t, ht, rfl⟩ := List.mem_map.mp h3
    simpa using ht
  · intro e he
    simp only [analyzeWithoutModel] at he
    have h1 := List.take_subset 5 _ he
    have h2 := (List.mem_filter.mp h1).1
    simp only [sortByWeightDesc, List.mem_insertionSort] at h2
    have h3 := (List.mem_filter.mp h2).1
    obtain ⟨t, ht, rfl⟩ := List.mem_map.mp h3
    simpa using ht

/-- C10 witness: on the one-record sample the topic entry s is produced
and its name is in the topic vocabulary. -/
theorem c10_rule_scorer_vocabulary_closure_witness :
    (⟨"s", 3⟩ : WeightedEntry) ∈ (analyzeWithoutModel ["s"] ["h"] sampleInters).topics ∧
    ("s" : String) ∈ ["s"] := by
  have hm : (⟨"s", 3⟩ : WeightedEntry)
      ∈ (analyzeWithoutModel ["s"] ["h"] sampleInters).topics := by
    rw [analyzeSample_eq]
    exact List.mem_singleton.mpr rfl
  exact ⟨hm, (c10_rule_scorer_vocabulary_closure ["s"] ["h"] sampleInters).1 _ hm⟩

/-- C5: for every interaction list the rule-based scorer keeps, per kind
independently, at most 5 entries, sorted descending by weight, each with
weight above 0.1 and equal to the composite 0.6 average plus 0.4
normalised total of the accumulated positive and negative scores for its
name (entries with weight 0 can thus never appear). -/
theorem c5_rule_scorer_selection (vocabT vocabH : List String)
    (inters : List Interaction) :
    ((analyzeWithoutModel vocabT vocabH inters).topics.length ≤ 5 ∧
     (analyzeWithoutModel vocabT vocabH inters).hashtags.length ≤ 5) ∧
    ((analyzeWithoutModel vocabT vocabH inters).topics.Pairwise
        (fun a b => b.weight ≤ a.weight) ∧
     (analyzeWithoutModel vocabT vocabH inters).hashtags.Pairwise
        (fun a b => b.weight ≤ a.weight)) ∧
    (∀ e ∈ (analyzeWithoutModel vocabT vocabH inters).topics,
      e.weight > 1/10 ∧
      e.weight = compositeWeight (topicData inters e.name) inters.length) ∧
    (∀ e ∈ (analyzeWithoutModel vocabT vocabH inters).hashtags,
      e.weight > 1/10 ∧
      e.weight = compositeWeight (hashtagData inters e.name) inters.length) := by
  refine ⟨⟨?_, ?_⟩, ⟨?_, ?_⟩, ?_, ?_⟩
  · exact List.length_take_le 5 _
  · exact List.length_take_le 5 _
  · exact List.Pairwise.sublist ((List.take_sublist 5 _).trans (List.filter_sublist _))
      (List.sorted_insertionSort weightGE _)
  · exact List.Pairwise.sublist ((List.take_sublist 5 _).trans (List.filter_sublist _))
      (List.sorted_insertionSort weightGE _)
  · intro e he
    simp only [analyzeWithoutModel] at he
    have h1 := List.take_subset 5 _ he
    have h2 := List.mem_filter.mp h1
    refine ⟨by simpa using of_decide_eq_true h2.2, ?_⟩
    have h3 := h2.1
    simp only [sortByWeightDesc, List.mem_insertionSort] at h3
    have h4 := (List.mem_filter.mp h3).1
    obtain ⟨t, ht, rfl⟩ := List.mem_map.mp h4
    rfl
  · intro e he
    simp only [analyzeWithoutModel] at he
    have h1 := List.take_subset 5 _ he
    have h2 := List.mem_filter.mp h1
    refine ⟨by simpa using of_decide_eq_true h2.2, ?_⟩
    have h3 := h2.1
    simp only [sortByWeightDesc, List.mem_insertionSort] at h3
    have h4 := (List.mem_filter.mp h3).1
    obtain ⟨t, ht, rfl⟩ := List.mem_map.mp h4
    rfl

/-- C5 witness: on the one-record sample the produced topic entry s
satisfies the bound and the composite weight formula. -/
theorem c5_rule_scorer_selection_witness :
    (analyzeWithoutModel ["s"] ["h"] sampleInters).topics.length ≤ 5 ∧
    ((⟨"s", 3⟩ : WeightedEntry).weight > 1/10 ∧
      (⟨"s", 3⟩ : WeightedEntry).weight
        = compositeWeight (topicData sampleInters "s") sampleInters.length) := by
  have hm : (⟨"s", 3⟩ : WeightedEntry)
      ∈ (analyzeWithoutModel ["s"] ["h"] sampleInters).topics := by
    rw [analyzeSample_eq]
    exact List.mem_singleton.mpr rfl
  exact ⟨(c5_rule_scorer_selection ["s"] ["h"] sampleInters).1.1,
    (c5_rule_scorer_selection ["s"] ["h"] sampleInters).2.2.1 _ hm⟩

/-- Folding an addition of zeros leaves the accumulator unchanged. -/
theorem foldl_add_of_zero {α : Type} (f : α → ℚ) (l : List α) (c : ℚ)
    (h : ∀ x ∈ l, f x = 0) :
    l.foldl (fun s x => s + f x) c = c := by
  induction l generalizing c with
  | nil => rfl
  | cons a t ih =>
    simp only [List.foldl_cons, h a (List.mem_cons_self a t), add_zero]
    exact ih c (fun x hx => h x (List.mem_cons_of_mem a hx))

/-- Every element of the sorted scored list is a post of the pool paired
with its score. -/
theorem mem_sorted_scored (posts : List Post) (tw hw : List (String × ℚ))
    (x : Post × ℚ)
    (hx : x ∈ sortPairsDesc (posts.map (fun p => (p, scorePost tw hw p)))) :
    x.2 = scorePost tw hw x.1 ∧ x.1 ∈ posts := by
  simp only [sortPairsDesc, List.mem_insertionSort] at hx
  obtain ⟨p, hp, rfl⟩ := List.mem_map.mp hx
  exact ⟨rfl, hp⟩

/-- The relevant core only contains posts of the pool. -/
theorem mem_coreOf (posts : List Post) (tw hw : List (String × ℚ)) (limit : Nat)
    (p : Post) (hp : p ∈ coreOf posts tw hw limit) : p ∈ posts := by
  simp only [coreOf] at hp
  obtain ⟨x, hx, rfl⟩ := List.mem_map.mp hp
  exact (mem_sorted_scored posts tw hw x (List.take_subset _ _ hx)).2

/-- C8: in the weighted-scoring path, the returned batch has at most limit
posts, all drawn from the pool; the relevant core is the pool sorted
descending by summed matched topic plus hashtag weights, cut to the top
2 * limit; the batch length is limit capped by the core plus
floor(limit * 0.3) noise items taken from the excluded candidates; noise
items never come from the core; when the whole pool fits in the limit the
batch is a permutation of the pool (all available items, never padded);
and a post matching no weight entry scores 0. -/
theorem c8_weighted_selection (posts : List Post) (tw hw : List (String × ℚ))
    (limit : Nat) (ns fs : List Post → List Post)
    (hns : ∀ l, (ns l).Perm l) (hfs : ∀ l, (fs l).Perm l) :
    ((weightedSelect posts tw hw limit ns fs).length ≤ limit) ∧
    (∀ p ∈ weightedSelect posts tw hw limit ns fs, p ∈ posts) ∧
    ((coreOf posts tw hw limit).Pairwise
        (fun a b => scorePost tw hw b ≤ scorePost tw hw a)) ∧
    ((coreOf posts tw hw limit).length = min (limit * 2) posts.length) ∧
    ((weightedSelect posts tw hw limit ns fs).length =
      min limit ((coreOf posts tw hw limit).length +
        min (limit * 3 / 10) (excludedOf posts tw hw limit).length)) ∧
    (∀ p ∈ (ns (excludedOf posts tw hw limit)).take (limit * 3 / 10),
      p ∉ coreOf posts tw hw limit) ∧
    (posts.length ≤ limit → (weightedSelect posts tw hw limit ns fs).Perm posts) ∧
    (∀ p : Post, (∀ t ∈ p.topics, wlookup tw t = 0) →
      (∀ g ∈ p.hashtags, wlookup hw g = 0) → scorePost tw hw p = 0) := by
  refine ⟨?_, ?_, ?_, ?_, ?_, ?_, ?_, ?_⟩
  · simp only [weightedSelect]
    exact List.length_take_le _ _
  · intro p hp
    simp only [weightedSelect] at hp
    have h1 := List.take_subset _ _ hp
    have h2 := (hfs _).mem_iff.mp h1
    rcases List.mem_append.mp h2 with hc | hn
    · exact mem_coreOf posts tw hw limit p hc
    · have h3 := List.take_subset _ _ hn
      have h4 := (hns _).mem_iff.mp h3
      simp only [excludedOf] at h4
      exact (List.mem_filter.mp h4).1
  · have hs : (sortPairsDesc (posts.map (fun p => (p, scorePost tw hw p)))).Pairwise
        scoreGE := List.sorted_insertionSort scoreGE _
    have ht := List.Pairwise.sublist (List.take_sublist (limit * 2) _) hs
    simp only [coreOf]
    rw [List.pairwise_map]
    refine List.Pairwise.imp_of_mem ?_ ht
    intro a b ha hb hab
    have ha2 := mem_sorted_scored posts tw hw a (List.take_subset _ _ ha)
    have hb2 := mem_sorted_scored posts tw hw b (List.take_subset _ _ hb)
    rw [← ha2.1, ← hb2.1]
    exact hab
  · simp [coreOf, sortPairsDesc, List.length_take, List.length_insertionSort]
  · simp only [weightedSelect]
    rw [List.length_take, (hfs _).length_eq, List.length_append,
      List.length_take, (hns _).length_eq]
  · intro p hp
    have h1 := List.take_subset _ _ hp
    have h2 := (hns _).mem_iff.mp h1
    simp only [excludedOf, List.mem_filter] at h2
    intro hc
    have h3 := h2.2
    simp [List.contains, List.elem_eq_mem, hc] at h3
  · intro hlim
    have hlen_sorted :
        (sortPairsDesc (posts.map (fun p => (p, scorePost tw hw p)))).length
          = posts.length := by
      simp [sortPairsDesc, List.length_insertionSort]
    have htake : (sortPairsDesc (posts.map (fun p => (p, scorePost tw hw p)))).take
        (limit * 2) = sortPairsDesc (posts.map (fun p => (p, scorePost tw hw p))) :=
      List.take_of_length_le (by rw [hlen_sorted]; omega)
    have hcore_perm : (coreOf posts tw hw limit).Perm posts := by
      simp only [coreOf, htake]
      have hp1 := List.perm_insertionSort scoreGE
        (posts.map (fun p => (p, scorePost tw hw p)))
      have hp2 := hp1.map (fun q : Post × ℚ => q.1)
      simpa [List.map_map, Function.comp_def, sortPairsDesc] using hp2
    have hexcl : excludedOf posts tw hw limit = [] := by
      simp only [excludedOf]
      rw [List.filter_eq_nil_iff]
      intro a ha
      simp [List.contains, List.elem_eq_mem, hcore_perm.mem_iff.mpr ha]
    have hns_nil : ns [] = [] := (hns []).eq_nil
    simp only [weightedSelect, hexcl, hns_nil, List.take_nil, List.append_nil]
    have hfs_perm := hfs (coreOf posts tw hw limit)
    have hlenfs : (fs (coreOf posts tw hw limit)).length ≤ limit := by
      rw [hfs_perm.length_eq, hcore_perm.length_eq]
      exact hlim
    rw [List.take_of_length_le hlenfs]
    exact hfs_perm.trans hcore_perm
  · intro p h1 h2
    simp only [scorePost]
    rw [foldl_add_of_zero _ _ _ h1, foldl_add_of_zero _ _ _ h2, add_zero]

/-- C8 witness: the two-post pool with a unit weight on topic s, limit 1
and identity shuffles. -/
theorem c8_weighted_selection_witness :
    (weightedSelect samplePosts [("s", 1)] [] 1 id id).length ≤ 1 ∧
    (coreOf samplePosts [("s", 1)] [] 1).length = min (1 * 2) samplePosts.length :=
  ⟨(c8_weighted_selection samplePosts [("s", 1)] [] 1 id id
      (fun l => List.Perm.refl l) (fun l => List.Perm.refl l)).1,
   (c8_weighted_selection samplePosts [("s", 1)] [] 1 id id
      (fun l => List.Perm.refl l) (fun l => List.Perm.refl l)).2.2.2.1⟩
